import Mathlib

/-!
Verification development for the conversation backend
(`src/backend/services/conversation_service.py` and
`src/backend/models/chat.py`): a TTL-bounded session cache and a
phase-driven conversation state machine.

The cache is embedded as an association list that preserves insertion
order (Python `dict` iteration order).  Clock readings
(`datetime.now()`) are modeled as integer seconds, passed explicitly as
a `now` argument; elapsed times (`.total_seconds()`) are then exact
integers, so the `int(...)` truncation in `get_ttl` is the identity.
Every claim about the cache relates whole-second quantities only.  Every stateful operation
is translated as a function returning its result together with the new
cache state; operations whose Python body performs no mutation return
the state unchanged.
-/

namespace S2P

/-- One cache slot: the Python dict
`{"data": value, "created_at": ..., "last_accessed": ...}`. -/
structure CacheEntry (α : Type) where
  data : α
  created_at : Int
  last_accessed : Int
  deriving Repr, DecidableEq

/-- The `SessionCache` object state: `_cache` (as an insertion-ordered
association list), the three configuration fields and `_last_cleanup`. -/
structure SessionCache (α : Type) where
  entries : List (String × CacheEntry α)
  ttl_seconds : Int
  max_sessions : Nat
  cleanup_interval : Int
  last_cleanup : Int
  deriving Repr, DecidableEq

namespace SessionCache

/-- `key in self._cache` on the association list. -/
def containsKey (key : String) (l : List (String × CacheEntry α)) : Bool :=
  l.any (fun p => p.1 == key)

/-- `self._cache[key]` lookup (first entry with the key, matching dict
semantics under the no-duplicate-keys invariant). -/
def findEntry (key : String) (l : List (String × CacheEntry α)) :
    Option (CacheEntry α) :=
  (l.find? (fun p => p.1 == key)).map (fun p => p.2)

/-- `SessionCache._is_expired`: `(now - last_accessed).total_seconds() >
ttl_seconds`. -/
def is_expired (ttl_seconds : Int) (now : Int) (e : CacheEntry α) : Bool :=
  decide (ttl_seconds < now - e.last_accessed)

/-- `SessionCache._cleanup_expired`: delete every expired entry
(collect-then-delete in Python equals an order-preserving filter). -/
def cleanup_expired (ttl_seconds : Int) (now : Int)
    (l : List (String × CacheEntry α)) : List (String × CacheEntry α) :=
  l.filter (fun p => !is_expired ttl_seconds now p.2)

/-- `SessionCache._lazy_cleanup`: run the expiry sweep when at least
`cleanup_interval` seconds passed since `_last_cleanup`. -/
def lazy_cleanup (now : Int) (c : SessionCache α) : SessionCache α :=
  if c.cleanup_interval ≤ now - c.last_cleanup then
    { c with entries := cleanup_expired c.ttl_seconds now c.entries,
             last_cleanup := now }
  else c

/-- The element Python's `min(keys, key=last_accessed)` selects: the
first entry (in iteration order) whose `last_accessed` is minimal.
`min` keeps the current best unless the challenger is strictly
smaller. -/
def minByLastAccessed : List (String × CacheEntry α) →
    Option (String × CacheEntry α)
  | [] => none
  | x :: xs =>
      some (xs.foldl
        (fun best y =>
          if y.2.last_accessed < best.2.last_accessed then y else best) x)

/-- `SessionCache._evict_oldest`: remove the entry with the minimal
`last_accessed` (no-op on an empty cache). -/
def evict_oldest (l : List (String × CacheEntry α)) :
    List (String × CacheEntry α) :=
  match minByLastAccessed l with
  | none => l
  | some m => l.eraseP (fun p => p.1 == m.1)

/-- `self._cache[key] = entry`: overwrite in place when the key exists
(dict assignment keeps the slot position), append otherwise. -/
def setEntry (key : String) (e : CacheEntry α)
    (l : List (String × CacheEntry α)) : List (String × CacheEntry α) :=
  if containsKey key l then
    l.map (fun p => if p.1 == key then (key, e) else p)
  else l ++ [(key, e)]

/-- `SessionCache.set`: lazy cleanup, then capacity check with eviction
of the oldest entry when the cache is full and the key is new, then
store the entry with both timestamps set to now. -/
def set (now : Int) (key : String) (value : α) (c : SessionCache α) :
    SessionCache α :=
  let c1 := lazy_cleanup now c
  let entries2 :=
    if c1.max_sessions ≤ c1.entries.length ∧ ¬ containsKey key c1.entries then
      evict_oldest c1.entries
    else c1.entries
  { c1 with entries :=
      setEntry key ⟨value, now, now⟩ entries2 }

/-- `SessionCache.get`: absent keys and expired entries yield `none`
(expired entries are deleted as a side effect); a live hit refreshes
`last_accessed` and returns the data. -/
def get (now : Int) (key : String) (c : SessionCache α) :
    Option α × SessionCache α :=
  match findEntry key c.entries with
  | none => (none, c)
  | some e =>
      if is_expired c.ttl_seconds now e then
        (none, { c with entries := c.entries.eraseP (fun p => p.1 == key) })
      else
        (some e.data,
         { c with entries :=
             c.entries.map (fun p =>
               if p.1 == key then (key, { e with last_accessed := now })
               else p) })

/-- `SessionCache.delete`: unconditional removal, returns whether the
key existed. -/
def delete (key : String) (c : SessionCache α) : Bool × SessionCache α :=
  if containsKey key c.entries then
    (true, { c with entries := c.entries.eraseP (fun p => p.1 == key) })
  else (false, c)

/-- `SessionCache.exists`: like `get` without returning the value; it
also deletes an expired entry it finds. -/
def existsKey (now : Int) (key : String) (c : SessionCache α) :
    Bool × SessionCache α :=
  match findEntry key c.entries with
  | none => (false, c)
  | some e =>
      if is_expired c.ttl_seconds now e then
        (false, { c with entries := c.entries.eraseP (fun p => p.1 == key) })
      else (true, c)

/-- `SessionCache.get_ttl`: `max(0, ttl_seconds - int(now -
last_accessed))`, with no mutation of the cache (the Python body only
reads). -/
def get_ttl (now : Int) (key : String) (c : SessionCache α) :
    Option Int × SessionCache α :=
  match findEntry key c.entries with
  | none => (none, c)
  | some e =>
      (some (max 0 (c.ttl_seconds - (now - e.last_accessed))), c)

/-- `SessionCache.extend_ttl`: refresh `last_accessed` iff the key is
present and not expired. -/
def extend_ttl (now : Int) (key : String) (c : SessionCache α) :
    Bool × SessionCache α :=
  match findEntry key c.entries with
  | none => (false, c)
  | some e =>
      if is_expired c.ttl_seconds now e then (false, c)
      else
        (true,
         { c with entries :=
             c.entries.map (fun p =>
               if p.1 == key then (key, { e with last_accessed := now })
               else p) })

/-- `SessionCache.count`: number of non-expired entries. -/
def count (now : Int) (c : SessionCache α) : Nat :=
  (c.entries.filter (fun p => !is_expired c.ttl_seconds now p.2)).length

/-- `SessionCache.cleanup`: eager sweep, returns the number removed. -/
def cleanup (now : Int) (c : SessionCache α) : Nat × SessionCache α :=
  let kept := cleanup_expired c.ttl_seconds now c.entries
  (c.entries.length - kept.length, { c with entries := kept })

end SessionCache

/-! ## Conversation data model (`src/backend/models/chat.py`)

`ChatMessage` timestamps, GPS coordinates inside `PlaceInfo`, audio
fields and the read-only seed fields (`user_preferences`,
`favorite_spots`, `visit_history`) are omitted: no modeled operation
reads them and no claim mentions them. -/

/-- `MessageRole`. -/
inductive MessageRole where
  | SYSTEM
  | USER
  | ASSISTANT
  deriving Repr, DecidableEq

/-- `ConversationPhase` (the ten-state enum). -/
inductive ConversationPhase where
  | WAITING_LOCATION
  | ASKING_DESTINATION
  | ASKING_PREFERENCES
  | SUGGESTING_FIRST
  | SUGGESTING_SECOND
  | SUGGESTING_THIRD
  | ASKING_OTHER_PREFERENCES
  | NAVIGATING
  | CONFIRMING_STOPOVER_CHANGE
  | CONFIRMING_DESTINATION_CHANGE
  deriving Repr, DecidableEq, Inhabited

/-- `ChatMessage` (role and content). -/
structure ChatMessage where
  role : MessageRole
  content : String
  deriving Repr, DecidableEq

/-- `PlaceInfo` (the name; coordinates are opaque to every claim). -/
structure PlaceInfo where
  name : String
  deriving Repr, DecidableEq

/-- One element of `ConversationContext.suggestions_list`: the dict
built from a retrieval result's metadata with `""` defaults. -/
structure Suggestion where
  place_name : String
  address : String
  impression : String
  deriving Repr, DecidableEq

/-- `ConversationContext`. -/
structure ConversationContext where
  session_id : String
  messages : List ChatMessage := []
  turn_count : Nat := 0
  phase : ConversationPhase := ConversationPhase.WAITING_LOCATION
  current_location : Option String := none
  destination : Option String := none
  destination_info : Option PlaceInfo := none
  additional_preferences : Option String := none
  suggestions_list : List Suggestion := []
  current_suggestion_index : Nat := 0
  selected_stopover : Option String := none
  selected_stopover_info : Option PlaceInfo := none
  last_ai_message : Option String := none
  deriving Repr, DecidableEq, Inhabited

/-- `ChatRequest` (message plus the optional location/destination
overrides; the other request fields are never read by
`process_message`). -/
structure ChatRequest where
  message : String
  current_location : Option String := none
  destination : Option String := none
  deriving Repr, DecidableEq

/-- `ChatResponse` (without the audio fields, which only mirror the
external TTS collaborator). -/
structure ChatResponse where
  message : String
  session_id : String := ""
  turn_count : Nat
  is_complete : Bool
  suggestions : List String
  suggestion_index : Option Nat := none
  suggestion_total : Option Nat := none
  destination : Option PlaceInfo := none
  stopover : Option PlaceInfo := none
  deriving Repr, DecidableEq, Inhabited

/-- The results the external collaborators return during one call:
retrieval (`vector_store.search`, already projected to the metadata
fields, `[]` on error), the LLM classification string, the LLM-generated
reply and its extracted choice list, and the two geocoding lookups. -/
structure Collaborators where
  rag_results : List Suggestion := []
  classification : String := ""
  llm_message : String := ""
  llm_suggestions : List String := []
  geocode_dest : Option PlaceInfo := none
  geocode_stopover : Option PlaceInfo := none
  deriving Repr, DecidableEq

/-- Python truthiness of an optional string (`None` and `""` are
falsy). -/
def truthyOpt : Option String → Bool
  | none => false
  | some s => s != ""

/-- Python `str(x)` of an optional string, as used in f-string
fallback templates. -/
def optStr : Option String → String
  | none => "None"
  | some s => s

/-- Does `needle` occur at the front of `hay`? -/
def matchesFront : List Char → List Char → Bool
  | [], _ => true
  | _ :: _, [] => false
  | a :: as, b :: bs => a == b && matchesFront as bs

/-- Python `needle in hay` on character lists. -/
def containsSub : List Char → List Char → Bool
  | [], needle => needle.isEmpty
  | hay@(_ :: t), needle => matchesFront needle hay || containsSub t needle

/-- Python `needle in hay` on strings. -/
def strContains (hay needle : String) : Bool :=
  containsSub hay.data needle.data

/-- Python `str.lower()` (character-wise; agrees with `Char.toLower` on
the ASCII letters occurring in the word lists, and is the identity on
the Japanese text). -/
def pyLower (s : String) : String :=
  ⟨s.data.map Char.toLower⟩

/-- Python `str.strip()`: drop leading and trailing whitespace. -/
def pyStrip (s : String) : String :=
  ⟨((s.data.dropWhile Char.isWhitespace).reverse.dropWhile Char.isWhitespace).reverse⟩

/-- The word list of `ConversationService._is_affirmative_response`. -/
def affirmative_words : List String :=
  ["はい", "yes", "ok", "okay", "オッケー", "おっけー",
   "いいね", "いい", "良い", "そこにする", "それにする",
   "行く", "行こう", "行きたい", "決まり", "決定",
   "うん", "ええ", "そうする", "お願い", "賛成",
   "了解", "りょうかい", "わかった", "オーケー"]

/-- The word list of `ConversationService._is_negative_response`. -/
def negative_words : List String :=
  ["いいえ", "no", "違う", "他の", "別の", "やめ",
   "ない", "なし", "だめ", "嫌", "いや", "結構です",
   "次", "他", "別"]

/-- `ConversationService._is_affirmative_response`: any affirmative word
occurs as a substring of the lowercased, stripped message. -/
def is_affirmative_response (message : String) : Bool :=
  let message_lower := pyStrip (pyLower message)
  affirmative_words.any (fun word => strContains message_lower word)

/-- `ConversationService._is_negative_response`. -/
def is_negative_response (message : String) : Bool :=
  let message_lower := pyStrip (pyLower message)
  negative_words.any (fun word => strContains message_lower word)

/-- Modelled from the spec: the keyword-matching fallback classifier
used "when no LLM collaborator is configured" is missing from the
source (only the two keyword predicates exist; `llm_service` declares
no `classify_user_response`, and `process_message` always delegates to
it).  Per the spec it checks negative-polarity words first, then
affirmative words. -/
def classify_keyword_fallback (message : String) : String :=
  if is_negative_response message then "negative"
  else if is_affirmative_response message then "affirmative"
  else "unknown"

/-- The no-preference keyword test inside the
`ASKING_OTHER_PREFERENCES` branch of `process_message` (raw message,
no lowering/stripping). -/
def is_no_preference (message : String) : Bool :=
  ["ない", "特に", "なし", "いらない", "直行"].any
    (fun word => strContains message word)

/-- `ConversationService._generate_llm_response` seen through the
collaborator boundary: the generated text plus the extracted choice
list capped at three (`suggestions[:3]`). -/
def generate_llm_response (o : Collaborators) : String × List String :=
  (o.llm_message, o.llm_suggestions.take 3)

/-- `ConversationService._generate_single_suggestion`: templated
presentation of the current candidate; `none` models the Python `None`
returned when the index is past the end. -/
def generate_single_suggestion (c : ConversationContext) : Option String :=
  if c.suggestions_list.isEmpty then some "提案がありません。"
  else if c.suggestions_list.length ≤ c.current_suggestion_index then none
  else
    match c.suggestions_list.get? c.current_suggestion_index with
    | none => none
    | some s =>
        let idx := c.current_suggestion_index
        let msg := toString (idx + 1) ++ "つ目の提案: " ++ s.place_name ++ "\n"
        let msg := if s.address != "" then msg ++ "住所: " ++ s.address ++ "\n" else msg
        let msg :=
          if s.impression != "" then
            msg ++ "前回の感想: 「" ++ s.impression.take 80 ++ "」\n"
          else msg
        some (msg ++ "\nここに行きますか？")

/-- The per-branch outputs of the phase dispatch inside
`process_message` (the local variables `response_message`,
`suggestions`, `is_complete`, `destination_info`, `stopover_info`
together with the mutated context). -/
structure StepOut where
  ctx : ConversationContext
  response_message : String
  suggestions : List String
  is_complete : Bool
  destination_info : Option PlaceInfo
  stopover_info : Option PlaceInfo
  deriving Repr, DecidableEq

/-- The shared body of the `SUGGESTING_FIRST/SECOND/THIRD` branch of
`process_message`.  The initial list access
`suggestions_list[current_suggestion_index]` is a Python `IndexError`
when the index is out of range, modeled by `none`. -/
def suggest_step (o : Collaborators) (c : ConversationContext) :
    Option StepOut :=
  match c.suggestions_list.get? c.current_suggestion_index with
  | none => none
  | some current_suggestion =>
    if o.classification == "affirmative" then
      let c1 := { c with
                  selected_stopover := some current_suggestion.place_name }
      let dinfo := if truthyOpt c1.destination then o.geocode_dest else none
      let c2 := { c1 with
                  destination_info :=
                    if truthyOpt c1.destination then o.geocode_dest
                    else c1.destination_info }
      let sinfo := if truthyOpt c2.selected_stopover then o.geocode_stopover else none
      let c3 := { c2 with
                  selected_stopover_info :=
                    if truthyOpt c2.selected_stopover then o.geocode_stopover
                    else c2.selected_stopover_info }
      let m0 := (generate_llm_response o).1
      let m := if m0 == "" then
                 "了解しました。目的地は" ++ optStr c3.destination ++
                 "、立ち寄り場所は" ++ optStr c3.selected_stopover ++
                 "です。ナビゲーションを開始します。"
               else m0
      some ⟨{ c3 with phase := ConversationPhase.NAVIGATING }, m, [], true, dinfo, sinfo⟩
    else
      let idx := c.current_suggestion_index + 1
      let c1 := { c with current_suggestion_index := idx }
      if idx < c1.suggestions_list.length then
        let c2 := { c1 with
                    phase :=
                      if idx == 1 then ConversationPhase.SUGGESTING_SECOND
                      else if idx == 2 then ConversationPhase.SUGGESTING_THIRD
                      else c1.phase }
        match (if (generate_llm_response o).1 == "" then generate_single_suggestion c2
               else some (generate_llm_response o).1) with
        | none => none
        | some m =>
          let s0 := (generate_llm_response o).2
          let s := if s0.isEmpty then
                     (if idx == c2.suggestions_list.length - 1 then
                        ["はい、そこに行きます", "いいえ、他の希望を伝える"]
                      else ["はい、そこに行きます", "いいえ、次の提案を見たい"])
                   else s0
          some ⟨c2, m, s, false, none, none⟩
      else
        let c2 := { c1 with phase := ConversationPhase.ASKING_OTHER_PREFERENCES }
        let m0 := (generate_llm_response o).1
        let m := if m0 == "" then "他に希望はありますか？" else m0
        some ⟨c2, m, (generate_llm_response o).2, false, none, none⟩

/-- The `phase`-dispatch block of `process_message` (lines 637-826 of
`conversation_service.py`), applied to the context after the request
overrides and the user-message append. -/
def phase_dispatch (req : ChatRequest) (o : Collaborators)
    (c : ConversationContext) : Option StepOut :=
  match c.phase with
  | ConversationPhase.WAITING_LOCATION =>
      some ⟨{ c with current_location := some req.message,
                     phase := ConversationPhase.ASKING_DESTINATION },
            "どこに行きたいですか？", [], false, none, none⟩
  | ConversationPhase.ASKING_DESTINATION =>
      some ⟨{ c with destination := some req.message,
                     phase := ConversationPhase.ASKING_PREFERENCES },
            req.message ++ "ですね。他に行きたいところ、やってみたいことはありますか？",
            [], false, none, none⟩
  | ConversationPhase.ASKING_PREFERENCES =>
      let c := { c with additional_preferences := some req.message }
      if o.rag_results.isEmpty then
        let m0 := (generate_llm_response o).1
        let m := if m0 == "" then
                   "申し訳ありません、訪問履歴から適切な場所が見つかりませんでした。\n他の希望はありますか？"
                 else m0
        some ⟨c, m, (generate_llm_response o).2, false, none, none⟩
      else
        let c1 := { c with suggestions_list := o.rag_results.take 3,
                           current_suggestion_index := 0,
                           phase := ConversationPhase.SUGGESTING_FIRST }
        let s0 := (generate_llm_response o).2
        let s := if s0.isEmpty then ["はい、そこに行きます", "いいえ、次の提案を見たい"] else s0
        some ⟨c1, (generate_llm_response o).1, s, false, none, none⟩
  | ConversationPhase.SUGGESTING_FIRST => suggest_step o c
  | ConversationPhase.SUGGESTING_SECOND => suggest_step o c
  | ConversationPhase.SUGGESTING_THIRD => suggest_step o c
  | ConversationPhase.ASKING_OTHER_PREFERENCES =>
      if is_no_preference req.message then
        let dinfo := if truthyOpt c.destination then o.geocode_dest else none
        let c := { c with destination_info :=
                     if truthyOpt c.destination then o.geocode_dest
                     else c.destination_info }
        let m0 := (generate_llm_response o).1
        let m := if m0 == "" then
                   "了解しました。目的地は" ++ optStr c.destination ++ "です。直行します。"
                 else m0
        some ⟨{ c with phase := ConversationPhase.NAVIGATING }, m, [], true, dinfo, none⟩
      else
        let c1 := { c with additional_preferences := some req.message }
        if o.rag_results.isEmpty then
          let m0 := (generate_llm_response o).1
          let m := if m0 == "" then
                     "申し訳ありません、適切な場所が見つかりませんでした。\n他の希望はありますか？"
                   else m0
          some ⟨c1, m, (generate_llm_response o).2, false, none, none⟩
        else
          let c2 := { c1 with suggestions_list := o.rag_results.take 3,
                              current_suggestion_index := 0,
                              phase := ConversationPhase.SUGGESTING_FIRST }
          let s0 := (generate_llm_response o).2
          let s := if s0.isEmpty then ["はい、そこに行きます", "いいえ、次の提案を見たい"] else s0
          some ⟨c2, (generate_llm_response o).1, s, false, none, none⟩
  | _ =>
      some ⟨c, "現在ナビゲーション中です。何かお手伝いできることはありますか？",
            [], false, none, none⟩

/-- The steps of `process_message` before the phase dispatch: the
request-field overrides (Python truthiness — `None` and `""` do not
override) and the user-message append. -/
def pre_dispatch (req : ChatRequest) (c0 : ConversationContext) :
    ConversationContext :=
  { c0 with
    current_location := if truthyOpt req.current_location then req.current_location
                        else c0.current_location,
    destination := if truthyOpt req.destination then req.destination
                   else c0.destination,
    messages := c0.messages ++ [⟨MessageRole.USER, req.message⟩] }

/-- The steps of `process_message` after the phase dispatch: assistant
message append, `last_ai_message` update, turn-count increment, and the
structured `ChatResponse`. -/
def post_dispatch (out : StepOut) : ConversationContext × ChatResponse :=
  let c5 := { out.ctx with
              messages := out.ctx.messages ++ [⟨MessageRole.ASSISTANT, out.response_message⟩],
              last_ai_message := some out.response_message,
              turn_count := out.ctx.turn_count + 1 }
  let showIdx := !c5.suggestions_list.isEmpty && !out.is_complete
  (c5,
    { message := out.response_message,
      session_id := c5.session_id,
      turn_count := c5.turn_count,
      is_complete := out.is_complete,
      suggestions := out.suggestions,
      suggestion_index := if showIdx then some (c5.current_suggestion_index + 1) else none,
      suggestion_total := if showIdx then some c5.suggestions_list.length else none,
      destination := out.destination_info,
      stopover := out.stopover_info })

/-- `ConversationService.process_message` from the point where the
session's context is in hand (line 613 onward).  `none` models an
uncaught Python exception (the out-of-range list access). -/
def process_message (req : ChatRequest) (o : Collaborators)
    (c0 : ConversationContext) : Option (ConversationContext × ChatResponse) :=
  (phase_dispatch req o (pre_dispatch req c0)).map post_dispatch

/-- `ConversationService.generate_timeout_response` from the point
where the context is in hand: appends the regenerated assistant
message, records `last_ai_message`, leaves `turn_count` and `phase`
untouched, and reports `is_complete = false`. -/
def generate_timeout_response (o : Collaborators) (c : ConversationContext) :
    ConversationContext × ChatResponse :=
  let response_text := o.llm_message
  let suggestions := o.llm_suggestions.take 3
  let c' := { c with
              messages := c.messages ++ [⟨MessageRole.ASSISTANT, response_text⟩],
              last_ai_message := some response_text }
  let showIdx := !c'.suggestions_list.isEmpty
  (c',
   { message := response_text,
     session_id := c'.session_id,
     turn_count := c'.turn_count,
     is_complete := false,
     suggestions := suggestions,
     suggestion_index := if showIdx then some (c'.current_suggestion_index + 1) else none,
     suggestion_total := if showIdx then some c'.suggestions_list.length else none,
     destination := none,
     stopover := none })

/-- Iterate `process_message` over a list of (request, collaborator
results) pairs on one session's context. -/
def run_messages : List (ChatRequest × Collaborators) → ConversationContext →
    Option ConversationContext
  | [], c => some c
  | x :: rest, c =>
      match process_message x.1 x.2 c with
      | none => none
      | some r => run_messages rest r.1

/-- The context `create_session` builds (seed data omitted as above):
initial phase `WAITING_LOCATION`, empty history, zero turns. -/
def initial_context (sid : String) : ConversationContext :=
  { session_id := sid }

/-- The suggestion-cycle invariant of C7: at most three candidates, the
cursor never beyond the end, and strictly inside while a suggestion is
being presented. -/
def SuggestInv (c : ConversationContext) : Prop :=
  c.suggestions_list.length ≤ 3 ∧
  c.current_suggestion_index ≤ c.suggestions_list.length ∧
  ((c.phase = ConversationPhase.SUGGESTING_FIRST ∨
    c.phase = ConversationPhase.SUGGESTING_SECOND ∨
    c.phase = ConversationPhase.SUGGESTING_THIRD) →
      c.current_suggestion_index < c.suggestions_list.length)

instance (c : ConversationContext) : Decidable (SuggestInv c) := by
  unfold SuggestInv
  infer_instance

/-! ## Concrete instances used by witnesses and counterexamples -/

/-- A two-entry cache at capacity (`max_sessions = 2`); the entry with
key `"b"` has the older `last_accessed`. -/
def cacheAtCap : SessionCache Nat :=
  ⟨[("a", ⟨1, 0, 5⟩), ("b", ⟨2, 0, 3⟩)], 1800, 2, 300, 0⟩

/-- A one-entry cache with the default configuration values
(`ttl_seconds = 1800`, `max_sessions = 1000`, `cleanup_interval = 300`). -/
def cacheOne : SessionCache Nat :=
  ⟨[("s", ⟨5, 0, 0⟩)], 1800, 1000, 300, 0⟩

/-- A one-session cache holding a conversation context, for the
delete-then-set scenario. -/
def cacheSession : SessionCache ConversationContext :=
  ⟨[("s1", ⟨initial_context "s1", 0, 0⟩)], 1800, 1000, 300, 0⟩

/-- A request carrying only a message (no location/destination
overrides). -/
def reqPlain (m : String) : ChatRequest := { message := m }

/-- Collaborator results with empty retrieval and blank LLM output. -/
def emptyOracle : Collaborators := {}

/-- Collaborator results classifying the reply as negative. -/
def negOracle : Collaborators := { classification := "negative" }

/-- Collaborator results for the no-preference turn (geocoding the
stored destination succeeds). -/
def noPrefOracle : Collaborators := { geocode_dest := some ⟨"横浜"⟩ }

/-- A context waiting for stopover preferences, with the destination
already stored. -/
def ctxAskingPref : ConversationContext :=
  { session_id := "s", turn_count := 3,
    phase := ConversationPhase.ASKING_PREFERENCES,
    current_location := some "東京駅", destination := some "横浜" }

/-- A context presenting the first of three retrieved candidates. -/
def ctxSuggesting : ConversationContext :=
  { session_id := "s", turn_count := 5,
    phase := ConversationPhase.SUGGESTING_FIRST,
    current_location := some "東京駅", destination := some "横浜",
    additional_preferences := some "カフェ",
    suggestions_list := [⟨"Blue Bottle Coffee", "清澄白河", "静かで良い"⟩,
                         ⟨"代々木公園", "", ""⟩,
                         ⟨"横浜美術館", "", "落ち着く"⟩] }

/-- A context in the navigating phase with a chosen stopover. -/
def ctxNavigating : ConversationContext :=
  { session_id := "s", turn_count := 9,
    phase := ConversationPhase.NAVIGATING,
    current_location := some "東京駅", destination := some "横浜",
    selected_stopover := some "Blue Bottle Coffee" }

/-- The result of one negative-reply turn on `ctxSuggesting`. -/
def oneRejection : ConversationContext × ChatResponse :=
  (process_message (reqPlain "いいえ") negOracle ctxSuggesting).getD
    (ctxSuggesting, default)

/-! ## Association-list lemmas for the cache -/

namespace SessionCache

theorem pickMin_mem (xs : List (String × CacheEntry α)) :
    ∀ x : String × CacheEntry α,
      xs.foldl (fun best y =>
        if y.2.last_accessed < best.2.last_accessed then y else best) x ∈ x :: xs := by
  induction xs with
  | nil => intro x; simp
  | cons y ys ih =>
      intro x
      simp only [List.foldl_cons]
      rcases List.mem_cons.1 (ih (if y.2.last_accessed < x.2.last_accessed then y else x))
        with h | h
      · rw [h]
        split
        · exact List.mem_cons_of_mem _ (List.mem_cons_self _ _)
        · exact List.mem_cons_self _ _
      · exact List.mem_cons_of_mem _ (List.mem_cons_of_mem _ h)

theorem pickMin_le (xs : List (String × CacheEntry α)) :
    ∀ x : String × CacheEntry α,
      (xs.foldl (fun best y =>
         if y.2.last_accessed < best.2.last_accessed then y else best) x).2.last_accessed ≤
        x.2.last_accessed ∧
      ∀ q ∈ xs,
        (xs.foldl (fun best y =>
           if y.2.last_accessed < best.2.last_accessed then y else best) x).2.last_accessed ≤
          q.2.last_accessed := by
  induction xs with
  | nil => intro x; exact ⟨le_refl _, by simp⟩
  | cons y ys ih =>
      intro x
      simp only [List.foldl_cons]
      obtain ⟨h1, h2⟩ := ih (if y.2.last_accessed < x.2.last_accessed then y else x)
      have hx : (if y.2.last_accessed < x.2.last_accessed then y else x).2.last_accessed ≤
          x.2.last_accessed := by
        split
        · next hlt => exact le_of_lt hlt
        · exact le_refl _
      have hy : (if y.2.last_accessed < x.2.last_accessed then y else x).2.last_accessed ≤
          y.2.last_accessed := by
        split
        · exact le_refl _
        · next hlt => exact le_of_not_lt hlt
      refine ⟨le_trans h1 hx, ?_⟩
      intro q hq
      rcases List.mem_cons.1 hq with h | h
      · subst h; exact le_trans h1 hy
      · exact h2 q h

theorem minByLastAccessed_mem {l : List (String × CacheEntry α)}
    {m : String × CacheEntry α} (h : minByLastAccessed l = some m) : m ∈ l := by
  cases l with
  | nil => simp [minByLastAccessed] at h
  | cons x xs =>
      simp only [minByLastAccessed, Option.some.injEq] at h
      exact h ▸ pickMin_mem xs x

theorem minByLastAccessed_le {l : List (String × CacheEntry α)}
    {m : String × CacheEntry α} (h : minByLastAccessed l = some m) :
    ∀ q ∈ l, m.2.last_accessed ≤ q.2.last_accessed := by
  cases l with
  | nil => simp [minByLastAccessed] at h
  | cons x xs =>
      simp only [minByLastAccessed, Option.some.injEq] at h
      intro q hq
      obtain ⟨h1, h2⟩ := pickMin_le xs x
      rcases List.mem_cons.1 hq with hqx | hqs
      · exact h ▸ hqx ▸ h1
      · exact h ▸ h2 q hqs

theorem minByLastAccessed_isSome {l : List (String × CacheEntry α)}
    (h : l ≠ []) : ∃ m, minByLastAccessed l = some m := by
  cases l with
  | nil => exact absurd rfl h
  | cons x xs => exact ⟨_, rfl⟩

theorem length_setEntry (key : String) (e : CacheEntry α)
    (l : List (String × CacheEntry α)) :
    (setEntry key e l).length =
      if containsKey key l then l.length else l.length + 1 := by
  unfold setEntry
  split
  · simp
  · simp

theorem length_evict_oldest {l : List (String × CacheEntry α)} (h : l ≠ []) :
    (evict_oldest l).length = l.length - 1 := by
  obtain ⟨m, hm⟩ := minByLastAccessed_isSome h
  have hmem : m ∈ l := minByLastAccessed_mem hm
  unfold evict_oldest
  rw [hm]
  exact List.length_eraseP_of_mem hmem (by simp)

theorem containsKey_eraseP_of_not_contains {key : String}
    {l : List (String × CacheEntry α)} (h : containsKey key l = false)
    (p : (String × CacheEntry α) → Bool) :
    containsKey key (l.eraseP p) = false := by
  unfold containsKey at *
  rw [List.any_eq_false] at *
  intro x hx
  exact h x (List.mem_of_mem_eraseP hx)

theorem containsKey_evict_of_not_contains {key : String}
    {l : List (String × CacheEntry α)} (h : containsKey key l = false) :
    containsKey key (evict_oldest l) = false := by
  unfold evict_oldest
  split
  · exact h
  · exact containsKey_eraseP_of_not_contains h _

theorem findEntry_eq_none_of_not_contains {key : String}
    {l : List (String × CacheEntry α)} (h : containsKey key l = false) :
    findEntry key l = none := by
  unfold containsKey at h
  unfold findEntry
  rw [List.any_eq_false] at h
  rw [List.find?_eq_none.2 (fun x hx => by simpa using h x hx)]
  rfl

theorem findEntry_map_update (key : String) (e : CacheEntry α)
    (l : List (String × CacheEntry α)) :
    findEntry key (l.map (fun p => if p.1 == key then (key, e) else p)) =
      if containsKey key l then some e else none := by
  induction l with
  | nil => simp [findEntry, containsKey]
  | cons x xs ih =>
      by_cases hx : x.1 = key
      · simp [findEntry, containsKey, hx]
      · have hx' : (x.1 == key) = false := by simpa using hx
        simp only [findEntry, containsKey, List.map_cons, hx',
          Bool.false_eq_true, if_false, List.any_cons, Bool.false_or]
        rw [List.find?_cons_of_neg _ (by simp [hx])]
        simpa [findEntry, containsKey] using ih

theorem findEntry_append_single (key : String) (e : CacheEntry α)
    {l : List (String × CacheEntry α)} (h : containsKey key l = false) :
    findEntry key (l ++ [(key, e)]) = some e := by
  unfold findEntry
  rw [List.find?_append]
  have h0 : l.find? (fun p => p.1 == key) = none := by
    rw [List.find?_eq_none]
    intro x hx
    unfold containsKey at h
    rw [List.any_eq_false] at h
    simpa using h x hx
  rw [h0]
  simp

theorem findEntry_setEntry (key : String) (e : CacheEntry α)
    (l : List (String × CacheEntry α)) :
    findEntry key (setEntry key e l) = some e := by
  unfold setEntry
  split
  · next h => rw [findEntry_map_update, if_pos h]
  · next h =>
      exact findEntry_append_single key e (by simpa using Bool.not_eq_true _ ▸ h)

theorem findEntry_eraseP_self {key : String}
    {l : List (String × CacheEntry α)}
    (hnd : (l.map Prod.fst).Nodup) :
    findEntry key (l.eraseP (fun p => p.1 == key)) = none := by
  induction l with
  | nil => simp [findEntry]
  | cons x xs ih =>
      simp only [List.map_cons, List.nodup_cons] at hnd
      obtain ⟨hx, hxs⟩ := hnd
      by_cases hk : x.1 = key
      · rw [List.eraseP_cons_of_pos (by simpa using hk)]
        apply findEntry_eq_none_of_not_contains
        unfold containsKey
        rw [List.any_eq_false]
        intro q hq
        simp only [beq_iff_eq]
        intro hqk
        exact hx (hk ▸ hqk ▸ List.mem_map_of_mem Prod.fst hq)
      · rw [List.eraseP_cons_of_neg (by simpa using hk)]
        unfold findEntry
        rw [List.find?_cons_of_neg _ (by simpa using hk)]
        simpa [findEntry] using ih hxs

theorem lazy_cleanup_ttl (now : Int) (c : SessionCache α) :
    (lazy_cleanup now c).ttl_seconds = c.ttl_seconds := by
  unfold lazy_cleanup; split <;> rfl

theorem lazy_cleanup_max (now : Int) (c : SessionCache α) :
    (lazy_cleanup now c).max_sessions = c.max_sessions := by
  unfold lazy_cleanup; split <;> rfl

theorem lazy_cleanup_length_le (now : Int) (c : SessionCache α) :
    (lazy_cleanup now c).entries.length ≤ c.entries.length := by
  unfold lazy_cleanup
  split
  · exact List.length_filter_le _ _
  · exact le_refl _

theorem set_entries (now : Int) (key : String) (value : α) (c : SessionCache α) :
    (set now key value c).entries =
      setEntry key ⟨value, now, now⟩
        (if (lazy_cleanup now c).max_sessions ≤ (lazy_cleanup now c).entries.length ∧
            ¬ containsKey key (lazy_cleanup now c).entries then
           evict_oldest (lazy_cleanup now c).entries
         else (lazy_cleanup now c).entries) := rfl

theorem set_ttl (now : Int) (key : String) (value : α) (c : SessionCache α) :
    (set now key value c).ttl_seconds = c.ttl_seconds :=
  lazy_cleanup_ttl now c

theorem delete_ttl (key : String) (c : SessionCache α) :
    (delete key c).2.ttl_seconds = c.ttl_seconds := by
  unfold delete; split <;> rfl

theorem get_state_ttl (now : Int) (key : String) (c : SessionCache α) :
    (get now key c).2.ttl_seconds = c.ttl_seconds := by
  unfold get
  split
  · rfl
  · split <;> rfl

theorem contains_of_findEntry {key : String} {l : List (String × CacheEntry α)}
    {e : CacheEntry α} (h : findEntry key l = some e) :
    containsKey key l = true := by
  unfold findEntry at h
  obtain ⟨p, hp, _⟩ := Option.map_eq_some'.1 h
  have hpk := List.find?_some hp
  unfold containsKey
  rw [List.any_eq_true]
  exact ⟨p, List.mem_of_find?_eq_some hp, hpk⟩

end SessionCache

/-! ## Claim theorems: the session cache -/

/-- C1: `set` keeps the cache within `max_sessions` entries; when the
cache is at capacity and the key is new (and the lazy sweep does not
fire), exactly one entry is evicted before insertion — one whose
`last_accessed` is minimal — and `set` is a total function (it never
fails). -/
theorem set_capacity_bound_and_evicts_oldest {α : Type} (c : SessionCache α)
    (now : Int) (key : String) (value : α) (hmax : 1 ≤ c.max_sessions) :
    (c.entries.length ≤ c.max_sessions →
      (SessionCache.set now key value c).entries.length ≤ c.max_sessions)
    ∧ (now - c.last_cleanup < c.cleanup_interval →
       c.entries.length = c.max_sessions →
       SessionCache.containsKey key c.entries = false →
       ∃ m ∈ c.entries,
         (∀ q ∈ c.entries, m.2.last_accessed ≤ q.2.last_accessed) ∧
         (SessionCache.set now key value c).entries =
           c.entries.eraseP (fun p => p.1 == m.1) ++ [(key, ⟨value, now, now⟩)] ∧
         (SessionCache.set now key value c).entries.length = c.max_sessions) := by
  constructor
  · intro hlen
    rw [SessionCache.set_entries, SessionCache.length_setEntry]
    have hl1 : (SessionCache.lazy_cleanup now c).entries.length ≤ c.entries.length :=
      SessionCache.lazy_cleanup_length_le now c
    have hm1 : (SessionCache.lazy_cleanup now c).max_sessions = c.max_sessions :=
      SessionCache.lazy_cleanup_max now c
    by_cases hcond :
        (SessionCache.lazy_cleanup now c).max_sessions ≤
            (SessionCache.lazy_cleanup now c).entries.length ∧
          ¬ SessionCache.containsKey key (SessionCache.lazy_cleanup now c).entries
    · rw [if_pos hcond]
      obtain ⟨hfull, hnew⟩ := hcond
      have hne : (SessionCache.lazy_cleanup now c).entries ≠ [] := by
        intro h0
        rw [h0] at hfull
        simp at hfull
        omega
      have hnc :
          SessionCache.containsKey key
            (SessionCache.evict_oldest (SessionCache.lazy_cleanup now c).entries) = false :=
        SessionCache.containsKey_evict_of_not_contains (by simpa using hnew)
      rw [hnc]
      simp only [Bool.false_eq_true, if_false]
      rw [SessionCache.length_evict_oldest hne]
      have hpos : 1 ≤ (SessionCache.lazy_cleanup now c).entries.length := by
        rcases Nat.eq_zero_or_pos (SessionCache.lazy_cleanup now c).entries.length with h0 | h1
        · exact absurd (List.length_eq_zero.1 h0) hne
        · exact h1
      omega
    · rw [if_neg hcond]
      by_cases hck :
          SessionCache.containsKey key (SessionCache.lazy_cleanup now c).entries = true
      · rw [hck]
        simp only [if_true]
        exact le_trans hl1 hlen
      · have hck' :
            SessionCache.containsKey key (SessionCache.lazy_cleanup now c).entries = false := by
          simpa using hck
        rw [hck']
        simp only [Bool.false_eq_true, if_false]
        have : ¬ ((SessionCache.lazy_cleanup now c).max_sessions ≤
            (SessionCache.lazy_cleanup now c).entries.length) := by
          intro hle
          exact hcond ⟨hle, by simp [hck']⟩
        omega
  · intro hnoclean hfull hnew
    have hlc : SessionCache.lazy_cleanup now c = c := by
      unfold SessionCache.lazy_cleanup
      rw [if_neg (by omega)]
    have hne : c.entries ≠ [] := by
      intro h0
      rw [h0] at hfull
      simp at hfull
      omega
    obtain ⟨m, hm⟩ := SessionCache.minByLastAccessed_isSome hne
    have hmem := SessionCache.minByLastAccessed_mem hm
    have heq : (SessionCache.set now key value c).entries =
        c.entries.eraseP (fun p => p.1 == m.1) ++ [(key, ⟨value, now, now⟩)] := by
      rw [SessionCache.set_entries, hlc,
        if_pos ⟨le_of_eq hfull.symm, by simp [hnew]⟩]
      unfold SessionCache.evict_oldest
      rw [hm]
      unfold SessionCache.setEntry
      rw [if_neg (by simp [SessionCache.containsKey_eraseP_of_not_contains hnew])]
    have hlen2 : (SessionCache.set now key value c).entries.length = c.max_sessions := by
      rw [heq, List.length_append, List.length_eraseP_of_mem hmem (by simp)]
      simp only [List.length_singleton]
      omega
    exact ⟨m, hmem, SessionCache.minByLastAccessed_le hm, heq, hlen2⟩

/-- Witness for C1 on a concrete two-entry cache at capacity: inserting
a third, fresh key stays at two entries and evicts the oldest entry
(key `"b"`, `last_accessed = 3`). -/
theorem set_capacity_bound_and_evicts_oldest_witness :
    (SessionCache.set 10 "c" 9 cacheAtCap).entries.length ≤ cacheAtCap.max_sessions ∧
    ∃ m ∈ cacheAtCap.entries,
      (∀ q ∈ cacheAtCap.entries, m.2.last_accessed ≤ q.2.last_accessed) ∧
      (SessionCache.set 10 "c" 9 cacheAtCap).entries =
        cacheAtCap.entries.eraseP (fun p => p.1 == m.1) ++ [("c", ⟨9, 10, 10⟩)] ∧
      (SessionCache.set 10 "c" 9 cacheAtCap).entries.length = cacheAtCap.max_sessions := by
  obtain ⟨h1, h2⟩ :=
    set_capacity_bound_and_evicts_oldest cacheAtCap 10 "c" 9 (by decide)
  exact ⟨h1 (by decide), h2 (by decide) (by decide) (by decide)⟩

/-- C2: `get_ttl` directly after a `set` or a successful `get` at the
same instant reports the full `ttl_seconds` (sliding expiration is
refreshed by both), and once more than `ttl_seconds` elapse after the
last access, `get` reports the key absent and deletes the entry. -/
theorem ttl_refreshed_and_expiry_deletes {α : Type} (c : SessionCache α)
    (key : String) (httl : 0 ≤ c.ttl_seconds)
    (hnd : (c.entries.map Prod.fst).Nodup) :
    (∀ now (value : α),
       (SessionCache.get_ttl now key (SessionCache.set now key value c)).1 =
         some c.ttl_seconds)
    ∧ (∀ now e, SessionCache.findEntry key c.entries = some e →
        SessionCache.is_expired c.ttl_seconds now e = false →
        (SessionCache.get_ttl now key (SessionCache.get now key c).2).1 =
          some c.ttl_seconds)
    ∧ (∀ later e, SessionCache.findEntry key c.entries = some e →
        c.ttl_seconds < later - e.last_accessed →
        (SessionCache.get later key c).1 = none ∧
        SessionCache.findEntry key (SessionCache.get later key c).2.entries = none) := by
  refine ⟨?_, ?_, ?_⟩
  · intro now value
    have hf : SessionCache.findEntry key (SessionCache.set now key value c).entries =
        some ⟨value, now, now⟩ := by
      rw [SessionCache.set_entries]
      exact SessionCache.findEntry_setEntry key _ _
    simp only [SessionCache.get_ttl, hf, SessionCache.set_ttl]
    rw [sub_self, sub_zero, max_eq_right httl]
  · intro now e hf hexp
    have hcont : SessionCache.containsKey key c.entries = true :=
      SessionCache.contains_of_findEntry hf
    have hst : (SessionCache.get now key c).2.entries =
        c.entries.map (fun p =>
          if p.1 == key then (key, { e with last_accessed := now }) else p) := by
      simp only [SessionCache.get, hf, hexp]
      simp
    have hf2 : SessionCache.findEntry key (SessionCache.get now key c).2.entries =
        some { e with last_accessed := now } := by
      rw [hst, SessionCache.findEntry_map_update, if_pos hcont]
    simp only [SessionCache.get_ttl, hf2, SessionCache.get_state_ttl]
    rw [show now - ({ e with last_accessed := now } : CacheEntry α).last_accessed = 0
          from sub_self now,
        sub_zero, max_eq_right httl]
  · intro later e hf hexp
    have hexp' : SessionCache.is_expired c.ttl_seconds later e = true := by
      simp [SessionCache.is_expired, hexp]
    constructor
    · simp only [SessionCache.get, hf, hexp']
      simp
    · simp only [SessionCache.get, hf, hexp']
      simpa using SessionCache.findEntry_eraseP_self hnd

/-- Witness for C2 on a one-entry cache: full TTL right after `set` and
after a live `get`, absence and deletion after 2000 > 1800 seconds. -/
theorem ttl_refreshed_and_expiry_deletes_witness :
    (SessionCache.get_ttl 0 "s" (SessionCache.set 0 "s" 5 cacheOne)).1 = some 1800 ∧
    (SessionCache.get_ttl 0 "s" (SessionCache.get 0 "s" cacheOne).2).1 = some 1800 ∧
    (SessionCache.get 2000 "s" cacheOne).1 = none ∧
    SessionCache.findEntry "s" (SessionCache.get 2000 "s" cacheOne).2.entries = none := by
  obtain ⟨h1, h2, h3⟩ :=
    ttl_refreshed_and_expiry_deletes cacheOne "s" (by decide) (by decide)
  obtain ⟨h3a, h3b⟩ := h3 2000 ⟨5, 0, 0⟩ (by decide) (by decide)
  exact ⟨h1 0 5, h2 0 ⟨5, 0, 0⟩ (by decide) (by decide), h3a, h3b⟩

/-- C9 counterexample: deleting session `"s1"` and then writing the
same identifier back with a stale context reference makes the session
observable again through `get` — the deleted session reappears as a
live entry, so deletion is not authoritative against a later `set`. -/
theorem delete_then_set_resurrects_counterexample :
    (SessionCache.get 10 "s1"
      (SessionCache.set 10 "s1" (initial_context "s1")
        (SessionCache.delete "s1" cacheSession).2)).1 = some (initial_context "s1") ∧
    (SessionCache.delete "s1" cacheSession).1 = true := by
  constructor
  · decide
  · decide

/-- C9 amended: after `delete`, a subsequent `set` on the same
identifier unconditionally re-inserts the value as a fresh live entry
(both timestamps equal to the write instant), and any `get` within
`ttl_seconds` of the write observes it.  Deletion removes only the
entry present at deletion time; it does not prevent resurrection by a
later write-back. -/
theorem delete_then_set_resurrects {α : Type} (c : SessionCache α)
    (key : String) (value : α) (t1 t2 : Int)
    (hwithin : t2 - t1 ≤ c.ttl_seconds) :
    SessionCache.findEntry key
        (SessionCache.set t1 key value (SessionCache.delete key c).2).entries =
      some ⟨value, t1, t1⟩ ∧
    (SessionCache.get t2 key
        (SessionCache.set t1 key value (SessionCache.delete key c).2)).1 = some value := by
  have hf : SessionCache.findEntry key
      (SessionCache.set t1 key value (SessionCache.delete key c).2).entries =
      some ⟨value, t1, t1⟩ := by
    rw [SessionCache.set_entries]
    exact SessionCache.findEntry_setEntry key _ _
  have httl : (SessionCache.set t1 key value (SessionCache.delete key c).2).ttl_seconds =
      c.ttl_seconds := by
    rw [SessionCache.set_ttl, SessionCache.delete_ttl]
  have hex : SessionCache.is_expired
      (SessionCache.set t1 key value (SessionCache.delete key c).2).ttl_seconds t2
      (⟨value, t1, t1⟩ : CacheEntry α) = false := by
    rw [httl]
    simp only [SessionCache.is_expired, decide_eq_false_iff_not, not_lt]
    exact hwithin
  refine ⟨hf, ?_⟩
  simp only [SessionCache.get, hf, hex]
  simp

/-- Witness for C9's amended statement at the concrete delete-then-set
scenario. -/
theorem delete_then_set_resurrects_witness :
    SessionCache.findEntry "s1"
        (SessionCache.set 10 "s1" (initial_context "s1")
          (SessionCache.delete "s1" cacheSession).2).entries =
      some ⟨initial_context "s1", 10, 10⟩ ∧
    (SessionCache.get 900 "s1"
        (SessionCache.set 10 "s1" (initial_context "s1")
          (SessionCache.delete "s1" cacheSession).2)).1 = some (initial_context "s1") :=
  delete_then_set_resurrects cacheSession "s1" (initial_context "s1") 10 900 (by decide)

/-- C10: on an entry that has expired but is still stored, `get_ttl`
answers `some 0` (not absent) and leaves the cache untouched, while
`get` and `exists` on the same state treat the key as absent and delete
the entry. -/
theorem get_ttl_expired_reports_zero {α : Type} (c : SessionCache α)
    (now : Int) (key : String) (e : CacheEntry α)
    (hnd : (c.entries.map Prod.fst).Nodup)
    (hf : SessionCache.findEntry key c.entries = some e)
    (hexp : c.ttl_seconds < now - e.last_accessed) :
    SessionCache.get_ttl now key c = (some 0, c)
    ∧ (SessionCache.get now key c).1 = none
    ∧ SessionCache.findEntry key (SessionCache.get now key c).2.entries = none
    ∧ (SessionCache.existsKey now key c).1 = false
    ∧ SessionCache.findEntry key (SessionCache.existsKey now key c).2.entries = none := by
  have hexp' : SessionCache.is_expired c.ttl_seconds now e = true := by
    simp [SessionCache.is_expired, hexp]
  refine ⟨?_, ?_, ?_, ?_, ?_⟩
  · simp only [SessionCache.get_ttl, hf]
    rw [max_eq_left (by omega)]
  · simp only [SessionCache.get, hf, hexp']
    simp
  · simp only [SessionCache.get, hf, hexp']
    simpa using SessionCache.findEntry_eraseP_self hnd
  · simp only [SessionCache.existsKey, hf, hexp']
    simp
  · simp only [SessionCache.existsKey, hf, hexp']
    simpa using SessionCache.findEntry_eraseP_self hnd

/-- Witness for C10 at 2000 elapsed seconds on the 1800-second cache. -/
theorem get_ttl_expired_reports_zero_witness :
    SessionCache.get_ttl 2000 "s" cacheOne = (some 0, cacheOne)
    ∧ (SessionCache.get 2000 "s" cacheOne).1 = none
    ∧ SessionCache.findEntry "s" (SessionCache.get 2000 "s" cacheOne).2.entries = none
    ∧ (SessionCache.existsKey 2000 "s" cacheOne).1 = false
    ∧ SessionCache.findEntry "s"
        (SessionCache.existsKey 2000 "s" cacheOne).2.entries = none :=
  get_ttl_expired_reports_zero cacheOne 2000 "s" ⟨5, 0, 0⟩
    (by decide) (by decide) (by decide)

/-! ## Structural lemmas for the phase machine -/

theorem generate_single_suggestion_isSome (c : ConversationContext)
    (h : c.current_suggestion_index < c.suggestions_list.length) :
    ∃ s, generate_single_suggestion c = some s := by
  unfold generate_single_suggestion
  split
  · exact ⟨_, rfl⟩
  · rw [if_neg (by omega), List.get?_eq_get h]
    exact ⟨_, rfl⟩

theorem suggest_step_total (o : Collaborators) (c : ConversationContext)
    (hidx : c.current_suggestion_index < c.suggestions_list.length) :
    ∃ out, suggest_step o c = some out := by
  cases hget : c.suggestions_list[c.current_suggestion_index]? with
  | none => rw [List.getElem?_eq_none_iff] at hget; omega
  | some cs =>
      simp only [suggest_step, List.get?_eq_getElem?, hget]
      split
      · exact ⟨_, rfl⟩
      · split
        · next hlt =>
            obtain ⟨s, hs⟩ := generate_single_suggestion_isSome
              { c with
                current_suggestion_index := c.current_suggestion_index + 1,
                phase := if c.current_suggestion_index + 1 == 1 then
                           ConversationPhase.SUGGESTING_SECOND
                         else if c.current_suggestion_index + 1 == 2 then
                           ConversationPhase.SUGGESTING_THIRD
                         else c.phase }
              (by simpa using hlt)
            split
            · next heq =>
                exfalso
                split at heq
                · rw [hs] at heq; simp at heq
                · simp at heq
            · exact ⟨_, rfl⟩
        · exact ⟨_, rfl⟩

theorem suggest_step_cases {o : Collaborators} {c : ConversationContext} {out : StepOut}
    (h : suggest_step o c = some out) :
    out.ctx.turn_count = c.turn_count ∧
    out.ctx.suggestions_list = c.suggestions_list ∧
    out.ctx.destination = c.destination ∧
    ((o.classification == "affirmative") = true →
        out.ctx.phase = ConversationPhase.NAVIGATING ∧
        out.is_complete = true ∧
        out.ctx.current_suggestion_index = c.current_suggestion_index) ∧
    ((o.classification == "affirmative") = false →
        out.ctx.current_suggestion_index = c.current_suggestion_index + 1 ∧
        out.is_complete = false ∧
        out.ctx.selected_stopover = c.selected_stopover ∧
        (c.current_suggestion_index + 1 < c.suggestions_list.length →
           out.ctx.phase =
             (if c.current_suggestion_index + 1 == 1 then ConversationPhase.SUGGESTING_SECOND
              else if c.current_suggestion_index + 1 == 2 then ConversationPhase.SUGGESTING_THIRD
              else c.phase)) ∧
        (¬ (c.current_suggestion_index + 1 < c.suggestions_list.length) →
           out.ctx.phase = ConversationPhase.ASKING_OTHER_PREFERENCES)) := by
  cases hget : c.suggestions_list[c.current_suggestion_index]? with
  | none => simp [suggest_step, List.get?_eq_getElem?, hget] at h
  | some cs =>
      simp only [suggest_step, List.get?_eq_getElem?, hget] at h
      split at h
      · next haff =>
          simp only [Option.some.injEq] at h
          subst h
          refine ⟨rfl, rfl, rfl, fun _ => ⟨rfl, rfl, rfl⟩, fun hneg => ?_⟩
          rw [haff] at hneg
          exact absurd hneg (by simp)
      · next haff =>
          have haff' : (o.classification == "affirmative") = false := by
            simpa using haff
          split at h
          · next hlt =>
              split at h
              · exact absurd h (by simp)
              · next m hm =>
                  simp only [Option.some.injEq] at h
                  subst h
                  refine ⟨rfl, rfl, rfl, fun haff2 => ?_, fun _ => ?_⟩
                  · rw [haff2] at haff'; exact absurd haff' (by simp)
                  · refine ⟨rfl, rfl, rfl, fun _ => rfl, fun hge => ?_⟩
                    exact absurd (by simpa using hlt) hge
          · next hge =>
              simp only [Option.some.injEq] at h
              subst h
              refine ⟨rfl, rfl, rfl, fun haff2 => ?_, fun _ => ?_⟩
              · rw [haff2] at haff'; exact absurd haff' (by simp)
              · exact ⟨rfl, rfl, rfl, fun hlt => absurd hlt (by simpa using hge), fun _ => rfl⟩

theorem suggest_inv_of_cases {o : Collaborators} {c : ConversationContext} {out : StepOut}
    (h : suggest_step o c = some out)
    (hlen : c.suggestions_list.length ≤ 3)
    (hidx : c.current_suggestion_index < c.suggestions_list.length) :
    SuggestInv out.ctx := by
  obtain ⟨htc, hsl, hdest, haffcl, hnegcl⟩ := suggest_step_cases h
  by_cases hcl : (o.classification == "affirmative") = true
  · obtain ⟨hph, hic, hkeep⟩ := haffcl hcl
    refine ⟨by rw [hsl]; exact hlen, ?_, ?_⟩
    · rw [hkeep, hsl]; exact le_of_lt hidx
    · intro hcon; rw [hph] at hcon; exact absurd hcon (by simp)
  · have hcl' : (o.classification == "affirmative") = false := by simpa using hcl
    obtain ⟨hic, hcompl, hsel, hinr, hout⟩ := hnegcl hcl'
    by_cases hrange : c.current_suggestion_index + 1 < c.suggestions_list.length
    · refine ⟨by rw [hsl]; exact hlen, ?_, fun _ => ?_⟩
      · rw [hic, hsl]; omega
      · rw [hic, hsl]; exact hrange
    · refine ⟨by rw [hsl]; exact hlen, ?_, fun hcon => ?_⟩
      · rw [hic, hsl]; omega
      · rw [hout hrange] at hcon; exact absurd hcon (by simp)

theorem dispatch_turn_count {req : ChatRequest} {o : Collaborators}
    {c : ConversationContext} {out : StepOut}
    (h : phase_dispatch req o c = some out) :
    out.ctx.turn_count = c.turn_count := by
  cases hp : c.phase <;> simp only [phase_dispatch, hp] at h
  case SUGGESTING_FIRST => exact (suggest_step_cases h).1
  case SUGGESTING_SECOND => exact (suggest_step_cases h).1
  case SUGGESTING_THIRD => exact (suggest_step_cases h).1
  case ASKING_PREFERENCES =>
      split at h <;> (simp only [Option.some.injEq] at h; subst h; rfl)
  case ASKING_OTHER_PREFERENCES =>
      split at h
      · simp only [Option.some.injEq] at h; subst h; rfl
      · split at h <;> (simp only [Option.some.injEq] at h; subst h; rfl)
  all_goals (simp only [Option.some.injEq] at h; subst h; rfl)

theorem dispatch_suggest_inv {req : ChatRequest} {o : Collaborators}
    {c : ConversationContext} {out : StepOut}
    (hInv : SuggestInv c) (h : phase_dispatch req o c = some out) :
    SuggestInv out.ctx := by
  obtain ⟨hlen, hle, hclose⟩ := hInv
  cases hp : c.phase <;> simp only [phase_dispatch, hp] at h
  case WAITING_LOCATION =>
      simp only [Option.some.injEq] at h; subst h
      exact ⟨hlen, hle, fun hcon => absurd hcon (by simp)⟩
  case ASKING_DESTINATION =>
      simp only [Option.some.injEq] at h; subst h
      exact ⟨hlen, hle, fun hcon => absurd hcon (by simp)⟩
  case ASKING_PREFERENCES =>
      split at h
      · simp only [Option.some.injEq] at h; subst h
        exact ⟨hlen, hle, fun hcon => by simp [hp] at hcon⟩
      · next hrag =>
          simp only [Option.some.injEq] at h; subst h
          refine ⟨by simp [List.length_take], Nat.zero_le _, fun _ => ?_⟩
          simp only [List.length_take]
          have h0 : o.rag_results ≠ [] := by
            intro h0; rw [h0] at hrag; simp at hrag
          have : 0 < o.rag_results.length := List.length_pos.2 h0
          omega
  case SUGGESTING_FIRST =>
      exact suggest_inv_of_cases h hlen (hclose (Or.inl hp))
  case SUGGESTING_SECOND =>
      exact suggest_inv_of_cases h hlen (hclose (Or.inr (Or.inl hp)))
  case SUGGESTING_THIRD =>
      exact suggest_inv_of_cases h hlen (hclose (Or.inr (Or.inr hp)))
  case ASKING_OTHER_PREFERENCES =>
      split at h
      · simp only [Option.some.injEq] at h; subst h
        exact ⟨hlen, hle, fun hcon => absurd hcon (by simp)⟩
      · split at h
        · simp only [Option.some.injEq] at h; subst h
          exact ⟨hlen, hle, fun hcon => by simp [hp] at hcon⟩
        · next hrag =>
            simp only [Option.some.injEq] at h; subst h
            refine ⟨by simp [List.length_take], Nat.zero_le _, fun _ => ?_⟩
            simp only [List.length_take]
            have h0 : o.rag_results ≠ [] := by
              intro h0; rw [h0] at hrag; simp at hrag
            have : 0 < o.rag_results.length := List.length_pos.2 h0
            omega
  case NAVIGATING =>
      simp only [Option.some.injEq] at h; subst h
      exact ⟨hlen, hle, fun hcon => by simp [hp] at hcon⟩
  case CONFIRMING_STOPOVER_CHANGE =>
      simp only [Option.some.injEq] at h; subst h
      exact ⟨hlen, hle, fun hcon => by simp [hp] at hcon⟩
  case CONFIRMING_DESTINATION_CHANGE =>
      simp only [Option.some.injEq] at h; subst h
      exact ⟨hlen, hle, fun hcon => by simp [hp] at hcon⟩

theorem process_total_suggest (req : ChatRequest) (o : Collaborators)
    (c : ConversationContext)
    (hphase : c.phase = ConversationPhase.SUGGESTING_FIRST ∨
              c.phase = ConversationPhase.SUGGESTING_SECOND ∨
              c.phase = ConversationPhase.SUGGESTING_THIRD)
    (hidx : c.current_suggestion_index < c.suggestions_list.length) :
    ∃ r, process_message req o c = some r := by
  obtain ⟨out, hout⟩ := suggest_step_total o (pre_dispatch req c) hidx
  have hd : phase_dispatch req o (pre_dispatch req c) =
      suggest_step o (pre_dispatch req c) := by
    rcases hphase with hp | hp | hp
    · have hp' : (pre_dispatch req c).phase = ConversationPhase.SUGGESTING_FIRST := hp
      simp only [phase_dispatch, hp']
    · have hp' : (pre_dispatch req c).phase = ConversationPhase.SUGGESTING_SECOND := hp
      simp only [phase_dispatch, hp']
    · have hp' : (pre_dispatch req c).phase = ConversationPhase.SUGGESTING_THIRD := hp
      simp only [phase_dispatch, hp']
  exact ⟨post_dispatch out, by unfold process_message; rw [hd, hout]; rfl⟩

theorem process_total_other (req : ChatRequest) (o : Collaborators)
    (c : ConversationContext)
    (hphase : c.phase = ConversationPhase.ASKING_OTHER_PREFERENCES) :
    ∃ r, process_message req o c = some r := by
  have hp' : (pre_dispatch req c).phase = ConversationPhase.ASKING_OTHER_PREFERENCES :=
    hphase
  unfold process_message
  simp only [phase_dispatch, hp']
  by_cases hni : is_no_preference req.message = true
  · rw [if_pos hni]; exact ⟨_, rfl⟩
  · rw [if_neg hni]
    by_cases hrg : o.rag_results.isEmpty = true
    · rw [if_pos hrg]; exact ⟨_, rfl⟩
    · rw [if_neg hrg]; exact ⟨_, rfl⟩

theorem process_negative_step {req : ChatRequest} {o : Collaborators}
    {c : ConversationContext} {r : ConversationContext × ChatResponse}
    (hphase : c.phase = ConversationPhase.SUGGESTING_FIRST ∨
              c.phase = ConversationPhase.SUGGESTING_SECOND ∨
              c.phase = ConversationPhase.SUGGESTING_THIRD)
    (hneg : (o.classification == "affirmative") = false)
    (hreqd : truthyOpt req.destination = false)
    (h : process_message req o c = some r) :
    r.1.current_suggestion_index = c.current_suggestion_index + 1 ∧
    r.1.suggestions_list = c.suggestions_list ∧
    r.1.destination = c.destination ∧
    r.1.selected_stopover = c.selected_stopover ∧
    r.2.is_complete = false ∧
    (c.current_suggestion_index + 1 < c.suggestions_list.length →
       r.1.phase =
         (if c.current_suggestion_index + 1 == 1 then ConversationPhase.SUGGESTING_SECOND
          else if c.current_suggestion_index + 1 == 2 then ConversationPhase.SUGGESTING_THIRD
          else c.phase)) ∧
    (¬ (c.current_suggestion_index + 1 < c.suggestions_list.length) →
       r.1.phase = ConversationPhase.ASKING_OTHER_PREFERENCES) := by
  obtain ⟨out, hout, hr⟩ := Option.map_eq_some'.1 h
  have hss : suggest_step o (pre_dispatch req c) = some out := by
    rcases hphase with hp | hp | hp
    · have hp' : (pre_dispatch req c).phase = ConversationPhase.SUGGESTING_FIRST := hp
      simpa only [phase_dispatch, hp'] using hout
    · have hp' : (pre_dispatch req c).phase = ConversationPhase.SUGGESTING_SECOND := hp
      simpa only [phase_dispatch, hp'] using hout
    · have hp' : (pre_dispatch req c).phase = ConversationPhase.SUGGESTING_THIRD := hp
      simpa only [phase_dispatch, hp'] using hout
  have hdest : (pre_dispatch req c).destination = c.destination := by
    simp [pre_dispatch, hreqd]
  obtain ⟨htc, hsl, hdest2, _, hnegcl⟩ := suggest_step_cases hss
  obtain ⟨hic, hcompl, hsel, hinr, houtp⟩ := hnegcl hneg
  subst hr
  exact ⟨hic, hsl, hdest2.trans hdest, hsel, hcompl, hinr, houtp⟩

theorem process_no_preference_step {req : ChatRequest} {o : Collaborators}
    {c : ConversationContext} {r : ConversationContext × ChatResponse}
    (hphase : c.phase = ConversationPhase.ASKING_OTHER_PREFERENCES)
    (hnp : is_no_preference req.message = true)
    (hreqd : truthyOpt req.destination = false)
    (h : process_message req o c = some r) :
    r.2.is_complete = true ∧
    r.1.phase = ConversationPhase.NAVIGATING ∧
    r.1.selected_stopover = c.selected_stopover ∧
    r.1.destination = c.destination ∧
    r.1.suggestions_list = c.suggestions_list ∧
    r.1.current_suggestion_index = c.current_suggestion_index := by
  have hp' : (pre_dispatch req c).phase = ConversationPhase.ASKING_OTHER_PREFERENCES :=
    hphase
  have hdest : (pre_dispatch req c).destination = c.destination := by
    simp [pre_dispatch, hreqd]
  obtain ⟨out, hout, hr⟩ := Option.map_eq_some'.1 h
  simp only [phase_dispatch, hp'] at hout
  rw [if_pos hnp] at hout
  simp only [Option.some.injEq] at hout
  subst hout
  subst hr
  exact ⟨rfl, rfl, rfl, hdest, rfl, rfl⟩

/-! ## Claim theorems: the phase machine -/

/-- C3 counterexample: in `ASKING_PREFERENCES`, a message whose
retrieval returns no candidates leaves the context in
`ASKING_PREFERENCES` with `is_complete = false` — the terminal
"no stopover" outcome the claim describes is not reached. -/
theorem empty_retrieval_not_terminal_counterexample :
    (process_message (reqPlain "カフェに行きたい") emptyOracle ctxAskingPref).map
        (fun p => (p.1.phase, p.2.is_complete)) =
      some (ConversationPhase.ASKING_PREFERENCES, false) := by decide

/-- C3 amended: when retrieval returns no candidates in
`ASKING_PREFERENCES`, `process_message` succeeds with an informational
reply, keeps the phase at `ASKING_PREFERENCES` (so the next message
re-runs retrieval), reports `is_complete = false`, and leaves the
suggestion state untouched.  No terminal outcome is produced. -/
theorem empty_retrieval_stays_asking_preferences
    (req : ChatRequest) (o : Collaborators) (c : ConversationContext)
    (hphase : c.phase = ConversationPhase.ASKING_PREFERENCES)
    (hrag : o.rag_results = []) :
    ∃ p, process_message req o c = some p ∧
      p.1.phase = ConversationPhase.ASKING_PREFERENCES ∧
      p.2.is_complete = false ∧
      p.1.suggestions_list = c.suggestions_list ∧
      p.1.current_suggestion_index = c.current_suggestion_index := by
  have hp' : (pre_dispatch req c).phase = ConversationPhase.ASKING_PREFERENCES := hphase
  have hempty : o.rag_results.isEmpty = true := by rw [hrag]; rfl
  unfold process_message
  simp only [phase_dispatch, hp']
  rw [if_pos hempty]
  exact ⟨_, rfl, rfl, rfl, rfl, rfl⟩

/-- Witness for C3's amended statement at the concrete context. -/
theorem empty_retrieval_stays_asking_preferences_witness :
    ∃ p, process_message (reqPlain "カフェに行きたい") emptyOracle ctxAskingPref = some p ∧
      p.1.phase = ConversationPhase.ASKING_PREFERENCES ∧
      p.2.is_complete = false ∧
      p.1.suggestions_list = ctxAskingPref.suggestions_list ∧
      p.1.current_suggestion_index = ctxAskingPref.current_suggestion_index :=
  empty_retrieval_stays_asking_preferences (reqPlain "カフェに行きたい") emptyOracle
    ctxAskingPref (by decide) (by decide)

/-- C4 (spec-modelled fallback classifier): the keyword fallback checks
negative-polarity words before affirmative words, so any message a
negative word occurs in — in particular "いいえ", which also contains
the affirmative word "いい" as a substring — is classified negative. -/
theorem negative_keywords_checked_first :
    (∀ message, is_negative_response message = true →
        classify_keyword_fallback message = "negative")
    ∧ is_affirmative_response "いいえ" = true
    ∧ is_negative_response "いいえ" = true
    ∧ classify_keyword_fallback "いいえ" = "negative" := by
  refine ⟨fun m hm => ?_, by decide, by decide, by decide⟩
  unfold classify_keyword_fallback
  rw [if_pos hm]

/-- Witness for C4 at the message "いいえ". -/
theorem negative_keywords_checked_first_witness :
    is_negative_response "いいえ" = true ∧
    classify_keyword_fallback "いいえ" = "negative" :=
  ⟨by decide, negative_keywords_checked_first.1 "いいえ" (by decide)⟩

/-- C5 counterexample: in `NAVIGATING`, a message carrying a
destination-change phrase does not transition to
`CONFIRMING_DESTINATION_CHANGE`; the phase stays `NAVIGATING` and the
reply is the fixed informational sentence. -/
theorem navigating_ignores_change_counterexample :
    (process_message (reqPlain "目的地を変更したい") emptyOracle ctxNavigating).map
        (fun p => (p.1.phase, p.2.message)) =
      some (ConversationPhase.NAVIGATING,
        "現在ナビゲーション中です。何かお手伝いできることはありますか？") := by decide

/-- C5 amended: in `NAVIGATING` (and in the two `CONFIRMING_*` phases,
which fall into the same catch-all branch), every message — whatever
phrase it carries — yields the fixed informational reply and leaves the
phase unchanged at `NAVIGATING`; no retrieval re-run and no transition
to a `CONFIRMING_*` phase ever happens. -/
theorem navigating_static_reply
    (req : ChatRequest) (o : Collaborators) (c : ConversationContext)
    (hphase : c.phase = ConversationPhase.NAVIGATING) :
    ∃ p, process_message req o c = some p ∧
      p.1.phase = ConversationPhase.NAVIGATING ∧
      p.2.message = "現在ナビゲーション中です。何かお手伝いできることはありますか？" ∧
      p.2.is_complete = false := by
  have hp' : (pre_dispatch req c).phase = ConversationPhase.NAVIGATING := hphase
  unfold process_message
  simp only [phase_dispatch, hp']
  exact ⟨_, rfl, hphase, rfl, rfl⟩

/-- Witness for C5's amended statement at the concrete navigating
context. -/
theorem navigating_static_reply_witness :
    ∃ p, process_message (reqPlain "目的地を変更したい") emptyOracle ctxNavigating = some p ∧
      p.1.phase = ConversationPhase.NAVIGATING ∧
      p.2.message = "現在ナビゲーション中です。何かお手伝いできることはありますか？" ∧
      p.2.is_complete = false :=
  navigating_static_reply (reqPlain "目的地を変更したい") emptyOracle ctxNavigating
    (by decide)

/-- C6: with three candidates and the cursor at 0, three negative
replies advance the cursor 0 → 1 → 2 → 3 through
`SUGGESTING_SECOND`/`SUGGESTING_THIRD` into `ASKING_OTHER_PREFERENCES`;
a following no-preference message completes the conversation with no
stopover selected and the stored destination intact. -/
theorem full_rejection_cycle
    (c : ConversationContext) (q1 q2 q3 q4 : ChatRequest)
    (o1 o2 o3 o4 : Collaborators)
    (hphase : c.phase = ConversationPhase.SUGGESTING_FIRST)
    (hidx : c.current_suggestion_index = 0)
    (hlen : c.suggestions_list.length = 3)
    (hsel : c.selected_stopover = none)
    (hneg1 : (o1.classification == "affirmative") = false)
    (hneg2 : (o2.classification == "affirmative") = false)
    (hneg3 : (o3.classification == "affirmative") = false)
    (hnp : is_no_preference q4.message = true)
    (hq1 : truthyOpt q1.destination = false)
    (hq2 : truthyOpt q2.destination = false)
    (hq3 : truthyOpt q3.destination = false)
    (hq4 : truthyOpt q4.destination = false) :
    ∃ p1 p2 p3 p4,
      process_message q1 o1 c = some p1 ∧
      p1.1.current_suggestion_index = 1 ∧
      p1.1.phase = ConversationPhase.SUGGESTING_SECOND ∧
      process_message q2 o2 p1.1 = some p2 ∧
      p2.1.current_suggestion_index = 2 ∧
      p2.1.phase = ConversationPhase.SUGGESTING_THIRD ∧
      process_message q3 o3 p2.1 = some p3 ∧
      p3.1.current_suggestion_index = 3 ∧
      p3.1.phase = ConversationPhase.ASKING_OTHER_PREFERENCES ∧
      process_message q4 o4 p3.1 = some p4 ∧
      p4.2.is_complete = true ∧
      p4.1.selected_stopover = none ∧
      p4.1.destination = c.destination := by
  obtain ⟨p1, h1⟩ := process_total_suggest q1 o1 c (Or.inl hphase) (by omega)
  obtain ⟨i1, l1, d1, s1, _, inr1, _⟩ :=
    process_negative_step (Or.inl hphase) hneg1 hq1 h1
  have hi1 : p1.1.current_suggestion_index = 1 := by rw [i1, hidx]
  have hl1 : p1.1.suggestions_list.length = 3 := by rw [l1]; exact hlen
  have hp1 : p1.1.phase = ConversationPhase.SUGGESTING_SECOND := by
    have hx := inr1 (by omega)
    rw [hidx] at hx
    simpa using hx
  obtain ⟨p2, h2⟩ := process_total_suggest q2 o2 p1.1 (Or.inr (Or.inl hp1)) (by omega)
  obtain ⟨i2, l2, d2, s2, _, inr2, _⟩ :=
    process_negative_step (Or.inr (Or.inl hp1)) hneg2 hq2 h2
  have hi2 : p2.1.current_suggestion_index = 2 := by rw [i2, hi1]
  have hl2 : p2.1.suggestions_list.length = 3 := by rw [l2]; exact hl1
  have hp2 : p2.1.phase = ConversationPhase.SUGGESTING_THIRD := by
    have hx := inr2 (by omega)
    rw [hi1] at hx
    simpa using hx
  obtain ⟨p3, h3⟩ := process_total_suggest q3 o3 p2.1 (Or.inr (Or.inr hp2)) (by omega)
  obtain ⟨i3, l3, d3, s3, _, _, hend3⟩ :=
    process_negative_step (Or.inr (Or.inr hp2)) hneg3 hq3 h3
  have hi3 : p3.1.current_suggestion_index = 3 := by rw [i3, hi2]
  have hp3 : p3.1.phase = ConversationPhase.ASKING_OTHER_PREFERENCES :=
    hend3 (by omega)
  obtain ⟨p4, h4⟩ := process_total_other q4 o4 p3.1 hp3
  obtain ⟨hc4, _, hsel4, hdst4, _, _⟩ :=
    process_no_preference_step hp3 hnp hq4 h4
  refine ⟨p1, p2, p3, p4, h1, hi1, hp1, h2, hi2, hp2, h3, hi3, hp3, h4, hc4, ?_, ?_⟩
  · rw [hsel4, s3, s2, s1, hsel]
  · rw [hdst4, d3, d2, d1]

/-- Witness for C6 at the concrete three-candidate context with three
"いいえ" replies and a final "特にない". -/
theorem full_rejection_cycle_witness :
    ∃ p1 p2 p3 p4,
      process_message (reqPlain "いいえ") negOracle ctxSuggesting = some p1 ∧
      p1.1.current_suggestion_index = 1 ∧
      p1.1.phase = ConversationPhase.SUGGESTING_SECOND ∧
      process_message (reqPlain "いいえ") negOracle p1.1 = some p2 ∧
      p2.1.current_suggestion_index = 2 ∧
      p2.1.phase = ConversationPhase.SUGGESTING_THIRD ∧
      process_message (reqPlain "いいえ") negOracle p2.1 = some p3 ∧
      p3.1.current_suggestion_index = 3 ∧
      p3.1.phase = ConversationPhase.ASKING_OTHER_PREFERENCES ∧
      process_message (reqPlain "特にない") noPrefOracle p3.1 = some p4 ∧
      p4.2.is_complete = true ∧
      p4.1.selected_stopover = none ∧
      p4.1.destination = ctxSuggesting.destination :=
  full_rejection_cycle ctxSuggesting
    (reqPlain "いいえ") (reqPlain "いいえ") (reqPlain "いいえ") (reqPlain "特にない")
    negOracle negOracle negOracle noPrefOracle
    (by decide) (by decide) (by decide) (by decide)
    (by decide) (by decide) (by decide) (by decide)
    (by decide) (by decide) (by decide) (by decide)

/-- C7: the suggestion-cycle invariant — at most 3 candidates, cursor
between 0 and the list length (strictly inside while presenting) —
holds for a fresh context and is preserved by every successful
`process_message` call. -/
theorem suggestion_bound_invariant :
    (∀ sid, SuggestInv (initial_context sid)) ∧
    (∀ (req : ChatRequest) (o : Collaborators) (c : ConversationContext) r,
       SuggestInv c → process_message req o c = some r → SuggestInv r.1) := by
  constructor
  · intro sid
    refine ⟨by simp [initial_context], by simp [initial_context], fun hcon => ?_⟩
    simp [initial_context] at hcon
  · intro req o c r hInv h
    obtain ⟨out, hout, hr⟩ := Option.map_eq_some'.1 h
    have hpre : SuggestInv (pre_dispatch req c) := hInv
    have hstep := dispatch_suggest_inv hpre hout
    subst hr
    exact hstep

/-- Witness for C7: the invariant holds before and after one concrete
rejection turn. -/
theorem suggestion_bound_invariant_witness :
    SuggestInv ctxSuggesting ∧ SuggestInv oneRejection.1 := by
  refine ⟨by decide, ?_⟩
  exact suggestion_bound_invariant.2 (reqPlain "いいえ") negOracle ctxSuggesting
    oneRejection (by decide) rfl

/-- C8: every successful `process_message` call increments the context's
turn count by exactly one (and reports it), N calls add exactly N, and
`generate_timeout_response` never changes the turn count. -/
theorem turn_count_once_per_message :
    (∀ (req : ChatRequest) (o : Collaborators) (c : ConversationContext) r,
       process_message req o c = some r →
       r.1.turn_count = c.turn_count + 1 ∧ r.2.turn_count = r.1.turn_count)
    ∧ (∀ (l : List (ChatRequest × Collaborators)) (c c' : ConversationContext),
       run_messages l c = some c' → c'.turn_count = c.turn_count + l.length)
    ∧ (∀ (o : Collaborators) (c : ConversationContext),
       (generate_timeout_response o c).1.turn_count = c.turn_count) := by
  have hstep : ∀ (req : ChatRequest) (o : Collaborators) (c : ConversationContext) r,
      process_message req o c = some r →
      r.1.turn_count = c.turn_count + 1 ∧ r.2.turn_count = r.1.turn_count := by
    intro req o c r h
    obtain ⟨out, hout, hr⟩ := Option.map_eq_some'.1 h
    have ht := dispatch_turn_count hout
    subst hr
    constructor
    · exact congrArg (· + 1) ht
    · rfl
  refine ⟨hstep, ?_, fun o c => rfl⟩
  intro l
  induction l with
  | nil =>
      intro c c' h
      simp only [run_messages, Option.some.injEq] at h
      subst h
      simp
  | cons x rest ih =>
      intro c c' h
      simp only [run_messages] at h
      cases hpm : process_message x.1 x.2 c with
      | none => rw [hpm] at h; simp at h
      | some p =>
          rw [hpm] at h
          have h2 := ih p.1 c' h
          have h1 := (hstep x.1 x.2 c p hpm).1
          simp only [List.length_cons]
          omega

/-- Witness for C8: one concrete message adds exactly one turn, and a
timeout regeneration adds none. -/
theorem turn_count_once_per_message_witness :
    ((run_messages [(reqPlain "海が見たい", emptyOracle)] ctxAskingPref).getD
        ctxAskingPref).turn_count = ctxAskingPref.turn_count + 1 ∧
    (generate_timeout_response emptyOracle ctxAskingPref).1.turn_count =
      ctxAskingPref.turn_count := by
  constructor
  · have h : run_messages [(reqPlain "海が見たい", emptyOracle)] ctxAskingPref =
        some ((run_messages [(reqPlain "海が見たい", emptyOracle)] ctxAskingPref).getD
          ctxAskingPref) := rfl
    simpa using turn_count_once_per_message.2.1 _ _ _ h
  · exact turn_count_once_per_message.2.2 emptyOracle ctxAskingPref

end S2P
